import Mathlib

/-!
Shallow embedding of the rekwest fluent HTTP request client
(github.com/m90/rekwest): the response-format constants and resolver
and the error accumulator from rekwest.go, and the builder state and
the `Do` method (error short-circuit, status-code policy, and the
per-destination decode loop) from the current client implementation.

Conventions of the embedding:
- Go byte slices and response bodies are Lean `String`s; Go `error`
  values are represented by their message strings (the code and the
  claims only ever observe errors through `Error()`).
- The Go standard library collaborators (`mime.ParseMediaType`,
  `encoding/json`, `encoding/xml`, `io/ioutil.ReadAll`) are external
  to the repository: `ReadAll` is modelled as draining the body stream
  with an optional read error, the structured decoders are abstract
  parameters (a `Decoders` record), and `parseMediaType` is a model of
  `mime.ParseMediaType` faithful on the media-type strings used here.
- The network race (goroutine, select over timeout / cancellation /
  result) is concurrency and is not embedded; `Do` is modelled from
  the point where the dispatch has delivered a successful `Response`,
  together with the pre-dispatch accumulator check that precedes it.
-/

namespace Rekwest

/-- ResponseFormat constant `ResponseFormatContentType` (rekwest.go). -/
def ResponseFormatContentType : String := "content-type"

/-- ResponseFormat constant `ResponseFormatJSON` (rekwest.go). -/
def ResponseFormatJSON : String := "json"

/-- ResponseFormat constant `ResponseFormatXML` (rekwest.go). -/
def ResponseFormatXML : String := "xml"

/-- ResponseFormat constant `ResponseFormatBytes` (rekwest.go). -/
def ResponseFormatBytes : String := "bytes"

/-- targetFormat constant `targetFormatJSON` (rekwest.go). -/
def targetFormatJSON : String := "json"

/-- targetFormat constant `targetFormatXML` (rekwest.go). -/
def targetFormatXML : String := "xml"

/-- targetFormat constant `targetFormatBytes` (rekwest.go). -/
def targetFormatBytes : String := "bytes"

/-- Accept header value `acceptJSON` (rekwest.go). -/
def acceptJSON : String := "application/json"

/-- Accept header value `acceptXML` (rekwest.go). -/
def acceptXML : String := "text/xml, application/xml"

/-- Characters of a header value before the first `;` (parameters such
as `charset` start there and are ignored by the media-type parse). -/
def mediaTypeBase : List Char → List Char
  | [] => []
  | c :: cs => if c = ';' then [] else c :: mediaTypeBase cs

/-- Blank characters trimmed around a media type. -/
def isMimeSpace (c : Char) : Bool := c == ' ' || c == '\t'

/-- Model of the Go standard library collaborator `mime.ParseMediaType`,
restricted to the behaviour the repository exercises: the media type is
the part before the first `;`, trimmed and lowercased, with parameters
(such as `charset`) ignored; an empty input (the result of
`Header.Get` on an absent `Content-Type` header) fails with the
stdlib's error message `mime: no media type`. -/
def parseMediaType (v : String) : String × Option String :=
  let base := ((mediaTypeBase v.data).dropWhile isMimeSpace).reverse.dropWhile isMimeSpace
  let m := String.mk (base.reverse.map Char.toLower)
  if m = "" then ("", some "mime: no media type")
  else (m, none)

/-- Embedding of `inferTargetFormat` (rekwest.go lines 95-105): parse
the media type and switch on it; the parse error, if any, is returned
alongside the chosen format. -/
def inferTargetFormat (contentType : String) : String × Option String :=
  let p := parseMediaType contentType
  if p.fst = "application/json" then (targetFormatJSON, p.snd)
  else if p.fst = "text/xml" ∨ p.fst = "application/xml" then (targetFormatXML, p.snd)
  else (targetFormatBytes, p.snd)

/-- Embedding of `MultiError` (rekwest.go lines 114-117); constituent
errors are carried as their message strings. -/
structure MultiError where
  Errors : List String
deriving DecidableEq

/-- Embedding of `MultiError.Error` (rekwest.go lines 119-125): collect
each constituent message into a fresh slice and join with `, `. -/
def MultiError.error (e : MultiError) : String :=
  String.intercalate ", " (e.Errors.foldl (fun collected err => collected ++ [err]) [])

/-- Embedding of `MultiError.append` (rekwest.go lines 127-131): append
each given error to the sequence in order. -/
def MultiError.appendErrs (e : MultiError) (errs : List String) : MultiError :=
  { Errors := errs.foldl (fun acc err => acc ++ [err]) e.Errors }

/-- Value stored behind a decode destination, as far as the claims
observe it: a byte slice, the test suite's `responseType` struct
(fields `OK bool`, `Animal string`), or some other opaque value. -/
inductive GoValue where
  | byteSlice (contents : String)
  | respStruct (ok : Bool) (animal : String)
  | other (descr : String)
deriving DecidableEq

/-- A decode destination (one element of `Do`'s variadic `targets`),
as seen through `reflect`: either a pointer whose element type has the
given `reflect.Type.String()` rendering and current value, or a
non-pointer value of the given `reflect.Kind` rendering. -/
inductive Target where
  | ptr (elemType : String) (val : GoValue)
  | nonPtr (kind : String)
deriving DecidableEq

/-- Abstract structured-decode collaborators (`encoding/json` and
`encoding/xml` decoders reading the response body stream): given the
remaining body and the destination, either the updated destination and
the remaining unread body, or a decode error message. -/
structure Decoders where
  jsonDecode : String → Target → Except String (Target × String)
  xmlDecode : String → Target → Except String (Target × String)

/-- State threaded through `Do`'s decode loop: the accumulator
`r.multiErr`, the unread remainder of `result.res.Body`, and the
pending read error `ReadAll` would report on that stream. -/
structure LoopState where
  multiErr : MultiError
  remaining : String
  readErr : Option String
deriving DecidableEq

/-- Embedding of the first switch of `Do`'s decode loop (the format
resolution per destination): a forced selector is used directly; the
content-type selector consults `inferTargetFormat`, and on a parse
error the error is reported and `format` keeps its zero value; any
other selector reports `found unknown response format <selector>` and
likewise leaves `format` at its zero value. Returns the resolved
format and the error to append, if any. -/
def resolveFormat (responseFormat contentType : String) : String × Option String :=
  if responseFormat = ResponseFormatJSON ∨ responseFormat = ResponseFormatXML ∨
      responseFormat = ResponseFormatBytes then
    (responseFormat, none)
  else if responseFormat = ResponseFormatContentType then
    let p := inferTargetFormat contentType
    match p.snd with
    | some e => ("", some e)
    | none => (p.fst, none)
  else
    ("", some ("found unknown response format " ++ responseFormat))

/-- Embedding of the second switch of `Do`'s decode loop: apply the
resolved strategy to one destination. JSON/XML delegate to the
abstract decoders, appending their error on failure; bytes drains the
body via `ReadAll` (appending a read error but continuing with the
bytes read), then requires a pointer destination whose element type
renders as `[]uint8`, reporting the encountered shape otherwise; a
zero-value format (no strategy resolved) matches no case and does
nothing. -/
def decodeTarget (dec : Decoders) (format : String) (st : LoopState) (t : Target) :
    LoopState × Target :=
  if format = targetFormatJSON then
    match dec.jsonDecode st.remaining t with
    | Except.ok r => ({ st with remaining := r.snd }, r.fst)
    | Except.error e => ({ st with multiErr := st.multiErr.appendErrs [e] }, t)
  else if format = targetFormatXML then
    match dec.xmlDecode st.remaining t with
    | Except.ok r => ({ st with remaining := r.snd }, r.fst)
    | Except.error e => ({ st with multiErr := st.multiErr.appendErrs [e] }, t)
  else if format = targetFormatBytes then
    let b := st.remaining
    let st1 : LoopState :=
      match st.readErr with
      | some e => { multiErr := st.multiErr.appendErrs [e], remaining := "", readErr := none }
      | none => { multiErr := st.multiErr, remaining := "", readErr := none }
    match t with
    | Target.nonPtr k =>
        ({ st1 with multiErr := (st1.multiErr.appendErrs
            ["expected pointer kind, encountered " ++ k ++ " when decoding into target element"]) },
          t)
    | Target.ptr s _ =>
        if s = "[]uint8" then (st1, Target.ptr s (GoValue.byteSlice b))
        else
          ({ st1 with multiErr := (st1.multiErr.appendErrs
              ["expected byte slice elem, encountered " ++ s ++
                " when decoding into target element"]) },
            t)
  else (st, t)

/-- One iteration of `Do`'s decode loop: resolve the format for this
destination (appending the resolution error, if any) and decode. -/
def processTarget (responseFormat contentType : String) (dec : Decoders)
    (st : LoopState) (t : Target) : LoopState × Target :=
  let rf := resolveFormat responseFormat contentType
  let st1 :=
    match rf.snd with
    | some e => { st with multiErr := st.multiErr.appendErrs [e] }
    | none => st
  decodeTarget dec rf.fst st1 t

/-- The whole decode loop `for _, target := range targets` of `Do`,
threading the accumulator and the body stream left to right and
returning the final state together with the destinations (each either
updated by its strategy or left as supplied). -/
def processTargets (responseFormat contentType : String) (dec : Decoders) :
    LoopState → List Target → LoopState × List Target
  | st, [] => (st, [])
  | st, t :: ts =>
    let p := processTarget responseFormat contentType dec st t
    let q := processTargets responseFormat contentType dec p.fst ts
    (q.fst, p.snd :: q.snd)

/-- Embedding of the builder state `request` (the fields the claims
observe: the accumulator `multiErr` and the `responseFormat` selector,
plus url / method / body / header for the configuration surface). -/
structure RequestState where
  url : String
  method : String
  body : Option String
  header : List (String × String)
  multiErr : MultiError
  responseFormat : String
deriving DecidableEq

/-- Embedding of `New` (rekwest.go lines 15-24): GET, empty header, no
body, empty accumulator, content-type-driven response format. -/
def New (url : String) : RequestState :=
  { url := url, method := "GET", body := none, header := [],
    multiErr := { Errors := [] }, responseFormat := ResponseFormatContentType }

/-- Embedding of `request.OK`: true iff the accumulator is empty. -/
def RequestState.OK (r : RequestState) : Bool := r.multiErr.Errors.length == 0

/-- Embedding of `request.Errors`. -/
def RequestState.getErrors (r : RequestState) : List String := r.multiErr.Errors

/-- Embedding of `request.Method`. -/
def RequestState.setMethod (r : RequestState) (m : String) : RequestState :=
  { r with method := m }

/-- Embedding of `request.Header` (header.Add). -/
def RequestState.headerAdd (r : RequestState) (k v : String) : RequestState :=
  { r with header := r.header ++ [(k, v)] }

/-- Embedding of `request.Body` / `request.BytesBody` (both store the
given bytes as the request body). -/
def RequestState.bytesBody (r : RequestState) (b : String) : RequestState :=
  { r with body := some b }

/-- Embedding of `request.MarshalBody`: the marshal collaborator's
outcome is passed in; an error is appended to the accumulator, a
success becomes the request body via `BytesBody`. -/
def RequestState.marshalBody (r : RequestState) (marshalResult : Except String String) :
    RequestState :=
  match marshalResult with
  | Except.error e => { r with multiErr := r.multiErr.appendErrs [e] }
  | Except.ok b => r.bytesBody b

/-- Embedding of `request.ResponseFormat`: sets the Accept header for
the JSON and XML formats, then stores the selector. -/
def RequestState.setResponseFormat (r : RequestState) (format : String) : RequestState :=
  let r1 :=
    if format = ResponseFormatJSON then r.headerAdd "Accept" acceptJSON
    else if format = ResponseFormatXML then r.headerAdd "Accept" acceptXML
    else r
  { r1 with responseFormat := format }

/-- The successful dispatch result as `Do` observes it: status code,
the value of `Header.Get` on `Content-Type` (empty when absent), the
body bytes, and the error `ReadAll` would report on the body. -/
structure Response where
  statusCode : Nat
  contentType : String
  bodyBytes : String
  readErr : Option String
deriving DecidableEq

/-- Result of one `Do` call: the returned error (as its message), the
builder state afterwards, and the destinations afterwards. -/
structure DoOutcome where
  err : Option String
  state : RequestState
  targets : List Target
deriving DecidableEq

/-- Embedding of `Do` from the successful arrival of the dispatch
result onwards: the status-code policy (≥ 400 reads the body, folding
a read failure into the message, and fails without decoding), then the
decode loop over the destinations, then the final accumulator check. -/
def RequestState.afterDispatch (r : RequestState) (res : Response) (dec : Decoders)
    (targets : List Target) : DoOutcome :=
  if 400 ≤ res.statusCode then
    match res.readErr with
    | some e =>
      { err := some ("request failed with status " ++ toString res.statusCode ++ ": " ++ e),
        state := r, targets := targets }
    | none =>
      { err := some ("request failed with status " ++ toString res.statusCode ++ ": " ++ res.bodyBytes),
        state := r, targets := targets }
  else
    let pr := processTargets r.responseFormat res.contentType dec
      { multiErr := r.multiErr, remaining := res.bodyBytes, readErr := res.readErr } targets
    let r2 := { r with multiErr := pr.fst.multiErr }
    if !r2.OK then { err := some r2.multiErr.error, state := r2, targets := pr.snd }
    else { err := none, state := r2, targets := pr.snd }

/-- Embedding of `Do`: the pre-dispatch accumulator check (a non-empty
accumulator returns the composite error before any request is built),
otherwise the post-dispatch processing of the response. -/
def RequestState.Do (r : RequestState) (res : Response) (dec : Decoders)
    (targets : List Target) : DoOutcome :=
  if !r.OK then { err := some r.multiErr.error, state := r, targets := targets }
  else r.afterDispatch res dec targets

/-- The response body of the spec's concrete scenario. -/
def platypusBody : String := "\x7b\"ok\":true,\"animal\":\"platypus\"\x7d"

/-- A destination pointing at a zero `responseType` struct. -/
def platypusDestBefore : Target :=
  Target.ptr "rekwest.responseType" (GoValue.respStruct false "")

/-- The same destination after decoding the scenario's body. -/
def platypusDestAfter : Target :=
  Target.ptr "rekwest.responseType" (GoValue.respStruct true "platypus")

/-- The scenario's response: 200, JSON content type, platypus body. -/
def platypusResponse : Response :=
  { statusCode := 200, contentType := "application/json", bodyBytes := platypusBody,
    readErr := none }

/-- Decoder collaborators that always fail; used where a witness needs
some concrete `Decoders` value whose behaviour is irrelevant. -/
def decStub : Decoders :=
  { jsonDecode := fun _ _ => Except.error "json stub",
    xmlDecode := fun _ _ => Except.error "xml stub" }

/-- Concrete model of the stdlib JSON decoder's behaviour on the
scenario's body and destination: decoding the platypus document into a
pointer to a zero `responseType` fills the two fields and consumes the
document; anything else is irrelevant to the scenario and fails. -/
def decPlatypus : Decoders :=
  { jsonDecode := fun body t =>
      if body = platypusBody ∧ t = platypusDestBefore then Except.ok (platypusDestAfter, "")
      else Except.error "json stub",
    xmlDecode := fun _ _ => Except.error "xml stub" }

/-! Helper lemmas about the embedding, shared by the claim theorems. -/

/-- Folding snoc over a list appends it to the accumulator. -/
theorem list_foldl_snoc (es : List String) :
    ∀ init : List String, es.foldl (fun acc x => acc ++ [x]) init = init ++ es := by
  induction es with
  | nil => intro init; simp
  | cons a as ih => intro init; simp [List.foldl, ih]

/-- MultiError.append concatenates the new errors in order. -/
theorem multiError_appendErrs_errors (e : MultiError) (es : List String) :
    (e.appendErrs es).Errors = e.Errors ++ es := by
  simp [MultiError.appendErrs, list_foldl_snoc]

/-- MultiError.Error joins the messages with a comma separator. -/
theorem multiError_error_eq (e : MultiError) :
    e.error = String.intercalate ", " e.Errors := by
  simp [MultiError.error, list_foldl_snoc]

/-- Intercalating a singleton list gives its element. -/
theorem intercalate_singleton (x : String) : String.intercalate ", " [x] = x := by
  simp [String.intercalate, String.intercalate.go]

/-- OK is propositionally the emptiness of the accumulator. -/
theorem requestState_ok_iff (r : RequestState) : r.OK = true ↔ r.multiErr.Errors = [] := by
  simp [RequestState.OK, List.length_eq_zero]

/-- Do with a non-empty accumulator short-circuits: it returns the
composite error with the state and destinations untouched, whatever
the response, the decoders and the destinations are. -/
theorem do_not_ok (r : RequestState) (res : Response) (dec : Decoders) (ts : List Target)
    (h : r.multiErr.Errors ≠ []) :
    r.Do res dec ts = { err := some r.multiErr.error, state := r, targets := ts } := by
  have hok : r.OK = false := by
    cases hco : r.OK with
    | false => rfl
    | true => exact absurd ((requestState_ok_iff r).mp hco) h
  simp [RequestState.Do, hok]

/-- Do with an empty accumulator proceeds to the dispatch phase. -/
theorem do_ok (r : RequestState) (res : Response) (dec : Decoders) (ts : List Target)
    (h : r.multiErr.Errors = []) :
    r.Do res dec ts = r.afterDispatch res dec ts := by
  have hok : r.OK = true := (requestState_ok_iff r).mpr h
  simp [RequestState.Do, hok]

/-- Decoding one destination only ever appends to the accumulator. -/
theorem decodeTarget_errors_mono (dec : Decoders) (f : String) (st : LoopState) (t : Target) :
    ∃ es, (decodeTarget dec f st t).fst.multiErr.Errors = st.multiErr.Errors ++ es := by
  by_cases hj : f = "json"
  · cases h : dec.jsonDecode st.remaining t with
    | ok p => exact ⟨[], by simp [decodeTarget, targetFormatJSON, targetFormatXML, targetFormatBytes, hj, h]⟩
    | error e => exact ⟨[e], by simp [decodeTarget, targetFormatJSON, targetFormatXML, targetFormatBytes, hj, h, multiError_appendErrs_errors]⟩
  · by_cases hx : f = "xml"
    · cases h : dec.xmlDecode st.remaining t with
      | ok p => exact ⟨[], by simp [decodeTarget, targetFormatJSON, targetFormatXML, targetFormatBytes, hj, hx, h]⟩
      | error e => exact ⟨[e], by simp [decodeTarget, targetFormatJSON, targetFormatXML, targetFormatBytes, hj, hx, h, multiError_appendErrs_errors]⟩
    · by_cases hb : f = "bytes"
      · cases hr : st.readErr with
        | none =>
          cases t with
          | nonPtr k =>
            exact ⟨["expected pointer kind, encountered " ++ k ++ " when decoding into target element"],
              by simp [decodeTarget, targetFormatJSON, targetFormatXML, targetFormatBytes, hj, hx, hb, hr, multiError_appendErrs_errors]⟩
          | ptr s v =>
            by_cases hs : s = "[]uint8"
            · exact ⟨[], by simp [decodeTarget, targetFormatJSON, targetFormatXML, targetFormatBytes, hj, hx, hb, hr, hs]⟩
            · exact ⟨["expected byte slice elem, encountered " ++ s ++ " when decoding into target element"],
                by simp [decodeTarget, targetFormatJSON, targetFormatXML, targetFormatBytes, hj, hx, hb, hr, hs, multiError_appendErrs_errors]⟩
        | some e =>
          cases t with
          | nonPtr k =>
            exact ⟨[e, "expected pointer kind, encountered " ++ k ++ " when decoding into target element"],
              by simp [decodeTarget, targetFormatJSON, targetFormatXML, targetFormatBytes, hj, hx, hb, hr, multiError_appendErrs_errors]⟩
          | ptr s v =>
            by_cases hs : s = "[]uint8"
            · exact ⟨[e], by simp [decodeTarget, targetFormatJSON, targetFormatXML, targetFormatBytes, hj, hx, hb, hr, hs, multiError_appendErrs_errors]⟩
            · exact ⟨[e, "expected byte slice elem, encountered " ++ s ++ " when decoding into target element"],
                by simp [decodeTarget, targetFormatJSON, targetFormatXML, targetFormatBytes, hj, hx, hb, hr, hs, multiError_appendErrs_errors]⟩
      · exact ⟨[], by simp [decodeTarget, targetFormatJSON, targetFormatXML, targetFormatBytes, hj, hx, hb]⟩

/-- One loop iteration only ever appends to the accumulator. -/
theorem processTarget_errors_mono (rf ct : String) (dec : Decoders) (st : LoopState)
    (t : Target) :
    ∃ es, (processTarget rf ct dec st t).fst.multiErr.Errors = st.multiErr.Errors ++ es := by
  unfold processTarget
  cases h : (resolveFormat rf ct).snd with
  | none => simpa [h] using decodeTarget_errors_mono dec (resolveFormat rf ct).fst st t
  | some e =>
    obtain ⟨es, hes⟩ := decodeTarget_errors_mono dec (resolveFormat rf ct).fst
      { st with multiErr := st.multiErr.appendErrs [e] } t
    refine ⟨e :: es, ?_⟩
    simp [h, hes, multiError_appendErrs_errors]

/-- The decode loop only ever appends to the accumulator. -/
theorem processTargets_errors_mono (rf ct : String) (dec : Decoders) :
    ∀ (ts : List Target) (st : LoopState),
      ∃ es, (processTargets rf ct dec st ts).fst.multiErr.Errors = st.multiErr.Errors ++ es := by
  intro ts
  induction ts with
  | nil => intro st; exact ⟨[], by simp [processTargets]⟩
  | cons t ts ih =>
    intro st
    obtain ⟨es1, h1⟩ := processTarget_errors_mono rf ct dec st t
    obtain ⟨es2, h2⟩ := ih (processTarget rf ct dec st t).fst
    exact ⟨es1 ++ es2, by simp [processTargets, h2, h1]⟩

/-- The decode loop treats the destination list compositionally: the
results for a first block of destinations are computed from the state
before them alone, and a later block only extends the state. -/
theorem processTargets_append (rf ct : String) (dec : Decoders) (ts1 ts2 : List Target) :
    ∀ st : LoopState,
      processTargets rf ct dec st (ts1 ++ ts2) =
        ((processTargets rf ct dec (processTargets rf ct dec st ts1).fst ts2).fst,
          (processTargets rf ct dec st ts1).snd ++
            (processTargets rf ct dec (processTargets rf ct dec st ts1).fst ts2).snd) := by
  induction ts1 with
  | nil => intro st; simp [processTargets]
  | cons t ts ih => intro st; simp [processTargets, ih]

/-- The decode loop yields exactly one output per destination. -/
theorem processTargets_length (rf ct : String) (dec : Decoders) :
    ∀ (ts : List Target) (st : LoopState),
      (processTargets rf ct dec st ts).snd.length = ts.length := by
  intro ts
  induction ts with
  | nil => intro st; simp [processTargets]
  | cons t ts ih => intro st; simp [processTargets, ih]

/-! Claim theorems. -/

/-- C9: the error accumulator satisfies its contract: appending an
error always adds exactly one entry at the end (never rejects, never
deduplicates — the count grows by one even for a repeated error);
`OK` returns true iff the error sequence is empty; and the composite
error's string form is the constituent messages joined with a comma
separator in insertion order. -/
theorem c9_multi_error_contract :
    (∀ (e : MultiError) (err : String),
      (e.appendErrs [err]).Errors = e.Errors ++ [err]
        ∧ (e.appendErrs [err]).Errors.length = e.Errors.length + 1)
    ∧ (∀ r : RequestState, r.OK = true ↔ r.multiErr.Errors = [])
    ∧ (∀ e : MultiError, e.error = String.intercalate ", " e.Errors) := by
  refine ⟨fun e err => ⟨multiError_appendErrs_errors e [err], ?_⟩,
    requestState_ok_iff, multiError_error_eq⟩
  simp [multiError_appendErrs_errors]

/-- Witness for C9 at concrete inputs: appending a duplicate error
still adds an entry, a fresh request is OK, and a two-error composite
renders as the comma-joined messages. -/
theorem c9_multi_error_contract_witness :
    (MultiError.appendErrs { Errors := ["dup"] } ["dup"]).Errors = ["dup", "dup"]
      ∧ (New "http://example.com").OK = true
      ∧ MultiError.error { Errors := ["first", "second"] } = "first, second" := by
  refine ⟨?_, ?_, ?_⟩
  · have h := (c9_multi_error_contract.1 { Errors := ["dup"] } "dup").1
    simpa using h
  · exact (c9_multi_error_contract.2.1 (New "http://example.com")).mpr rfl
  · have h := c9_multi_error_contract.2.2 { Errors := ["first", "second"] }
    simpa using h

/-- C4: a non-empty accumulator at the time `Do` is called (for
example after a failed body marshal) makes `Do` return the composite
error at once: the outcome is the same for every response, decoder
and destination list (so nothing is dispatched, no wire request is
consulted and no destination is touched), while an empty accumulator
makes `Do` proceed to the dispatch-and-decode phase. -/
theorem c4_short_circuit (r : RequestState) :
    (r.multiErr.Errors ≠ [] →
      ∀ (res : Response) (dec : Decoders) (ts : List Target),
        r.Do res dec ts = { err := some r.multiErr.error, state := r, targets := ts })
    ∧ (r.multiErr.Errors = [] →
      ∀ (res : Response) (dec : Decoders) (ts : List Target),
        r.Do res dec ts = r.afterDispatch res dec ts)
    ∧ (∀ e : String,
        (r.marshalBody (Except.error e)).multiErr.Errors = r.multiErr.Errors ++ [e]) := by
  refine ⟨fun h res dec ts => do_not_ok r res dec ts h,
    fun h res dec ts => do_ok r res dec ts h,
    fun e => ?_⟩
  simp [RequestState.marshalBody, multiError_appendErrs_errors]

/-- Witness for C4: a request whose JSON body marshal failed
short-circuits `Do` with that very error, for two different responses
alike, and a fresh request proceeds to dispatch. -/
theorem c4_short_circuit_witness :
    (((New "http://example.com").marshalBody (Except.error "marshal failed")).Do
        { statusCode := 200, contentType := "application/json", bodyBytes := "x", readErr := none }
        decStub []).err = some "marshal failed"
      ∧ (((New "http://example.com").marshalBody (Except.error "marshal failed")).Do
          { statusCode := 500, contentType := "", bodyBytes := "zzz", readErr := none }
          decStub [Target.nonPtr "bool"]).err = some "marshal failed"
      ∧ (New "http://example.com").Do
          { statusCode := 200, contentType := "", bodyBytes := "x", readErr := none } decStub []
        = (New "http://example.com").afterDispatch
          { statusCode := 200, contentType := "", bodyBytes := "x", readErr := none } decStub [] := by
  have h1 := (c4_short_circuit ((New "http://example.com").marshalBody
    (Except.error "marshal failed"))).1 (by decide)
  have h2 := (c4_short_circuit (New "http://example.com")).2.1 rfl
  refine ⟨?_, ?_, h2 _ decStub []⟩
  · rw [h1 _ decStub []]
    simp [multiError_error_eq, intercalate_singleton]
    rfl
  · rw [h1 _ decStub [Target.nonPtr "bool"]]
    simp [multiError_error_eq, intercalate_singleton]
    rfl

/-- C5: a response status of at least 400 makes `Do` read the full
body and fail with the error `request failed with status <code>:
<body>` (a read failure is folded into the message in place of the
body); nothing is decoded and no destination or state is mutated —
the outcome does not depend on the decoders at all. In particular an
HTTP 500 with body `zalgo` yields the error
`request failed with status 500: zalgo`. -/
theorem c5_status_error (r : RequestState) (res : Response) (dec : Decoders) (ts : List Target)
    (h1 : r.multiErr.Errors = []) (h2 : 400 ≤ res.statusCode) :
    (res.readErr = none →
      r.Do res dec ts =
        { err := some ("request failed with status " ++ toString res.statusCode ++ ": "
            ++ res.bodyBytes),
          state := r, targets := ts })
    ∧ (∀ e : String, res.readErr = some e →
      r.Do res dec ts =
        { err := some ("request failed with status " ++ toString res.statusCode ++ ": " ++ e),
          state := r, targets := ts }) := by
  rw [do_ok r res dec ts h1]
  constructor
  · intro hr
    simp [RequestState.afterDispatch, h2, hr]
  · intro e hr
    simp [RequestState.afterDispatch, h2, hr]

/-- Witness for C5: the concrete 500 / `zalgo` scenario, plus a
read-failure case folded into the message. -/
theorem c5_status_error_witness :
    (New "http://example.com").Do
        { statusCode := 500, contentType := "", bodyBytes := "zalgo", readErr := none }
        decStub [Target.nonPtr "bool"]
      = { err := some "request failed with status 500: zalgo",
          state := New "http://example.com", targets := [Target.nonPtr "bool"] }
      ∧ ((New "http://example.com").Do
          { statusCode := 404, contentType := "", bodyBytes := "", readErr := some "read reset" }
          decStub []).err = some "request failed with status 404: read reset" := by
  constructor
  · have h := (c5_status_error (New "http://example.com")
      { statusCode := 500, contentType := "", bodyBytes := "zalgo", readErr := none }
      decStub [Target.nonPtr "bool"] rfl (by decide)).1 rfl
    simpa using h
  · have h := (c5_status_error (New "http://example.com")
      { statusCode := 404, contentType := "", bodyBytes := "", readErr := some "read reset" }
      decStub [] rfl (by decide)).2 "read reset" rfl
    simp [h]
    rfl

/-- Appending twice is appending the concatenation. -/
theorem multiError_appendErrs_append (e : MultiError) (l1 l2 : List String) :
    (e.appendErrs l1).appendErrs l2 = e.appendErrs (l1 ++ l2) := by
  cases e
  simp [MultiError.appendErrs, list_foldl_snoc]

/-- One loop iteration under an unrecognized selector appends exactly
the unknown-format error and does not touch the destination, the body
stream or the pending read error. -/
theorem processTarget_unknown (rf : String) (h1 : rf ≠ "json") (h2 : rf ≠ "xml")
    (h3 : rf ≠ "bytes") (h4 : rf ≠ "content-type") (ct : String) (dec : Decoders)
    (st : LoopState) (t : Target) :
    processTarget rf ct dec st t =
      ({ st with multiErr := (st.multiErr.appendErrs ["found unknown response format " ++ rf]) },
        t) := by
  simp [processTarget, resolveFormat, ResponseFormatJSON, ResponseFormatXML,
    ResponseFormatBytes, ResponseFormatContentType, h1, h2, h3, h4, decodeTarget,
    targetFormatJSON, targetFormatXML, targetFormatBytes]

/-- The whole decode loop under an unrecognized selector appends one
unknown-format error per destination and returns the destinations
untouched. -/
theorem processTargets_unknown (rf : String) (h1 : rf ≠ "json") (h2 : rf ≠ "xml")
    (h3 : rf ≠ "bytes") (h4 : rf ≠ "content-type") (ct : String) (dec : Decoders) :
    ∀ (ts : List Target) (st : LoopState),
      processTargets rf ct dec st ts =
        ({ st with multiErr := (st.multiErr.appendErrs
            (List.replicate ts.length ("found unknown response format " ++ rf))) }, ts) := by
  intro ts
  induction ts with
  | nil => intro st; rfl
  | cons t ts ih =>
    intro st
    simp only [processTargets, processTarget_unknown rf h1 h2 h3 h4 ct dec, ih,
      multiError_appendErrs_append, List.length_cons, List.replicate_succ]
    rfl

/-- C3: a selector that is none of the recognized values makes format
resolution fail for every destination with the error message
`found unknown response format <selector>` carrying the literal
selector value; no decode strategy is applied to the destination
(which is returned untouched), and this holds for every response
content: the whole `Do` call leaves all destinations untouched and
returns the composite of one such error per destination. -/
theorem c3_unknown_format (rf : String)
    (h1 : rf ≠ ResponseFormatJSON) (h2 : rf ≠ ResponseFormatXML)
    (h3 : rf ≠ ResponseFormatBytes) (h4 : rf ≠ ResponseFormatContentType) :
    (∀ ct : String, resolveFormat rf ct = ("", some ("found unknown response format " ++ rf)))
    ∧ (∀ (ct : String) (dec : Decoders) (st : LoopState) (t : Target),
        processTarget rf ct dec st t =
          ({ st with multiErr := (st.multiErr.appendErrs
              ["found unknown response format " ++ rf]) }, t))
    ∧ (∀ (r : RequestState) (res : Response) (dec : Decoders) (ts : List Target),
        r.multiErr.Errors = [] → r.responseFormat = rf → res.statusCode < 400 → ts ≠ [] →
        (r.Do res dec ts).targets = ts
          ∧ (r.Do res dec ts).err = some (String.intercalate ", "
              (List.replicate ts.length ("found unknown response format " ++ rf)))) := by
  simp only [ResponseFormatJSON, ResponseFormatXML, ResponseFormatBytes,
    ResponseFormatContentType] at h1 h2 h3 h4
  refine ⟨?_, ?_, ?_⟩
  · intro ct
    simp [resolveFormat, ResponseFormatJSON, ResponseFormatXML, ResponseFormatBytes,
      ResponseFormatContentType, h1, h2, h3, h4]
  · intro ct dec st t
    exact processTarget_unknown rf h1 h2 h3 h4 ct dec st t
  · intro r res dec ts hacc hrf hst hts
    rw [do_ok r res dec ts hacc]
    have hn : ¬ 400 ≤ res.statusCode := Nat.not_le.mpr hst
    simp only [RequestState.afterDispatch, hn, if_false, hrf,
      processTargets_unknown rf h1 h2 h3 h4 res.contentType dec ts]
    have hlen : ts.length ≠ 0 := fun hzero => hts (List.length_eq_zero.mp hzero)
    have hcond : ((r.multiErr.appendErrs
        (List.replicate ts.length ("found unknown response format " ++ rf))).Errors.length
          == 0) = false := by
      simp [multiError_appendErrs_errors, hacc, hlen]
    simp [RequestState.OK, hcond, multiError_error_eq, multiError_appendErrs_errors, hacc, hts]

/-- Witness for C3 with the selector `zalgo` from the test suite: one
destination yields exactly the error
`found unknown response format zalgo` and is left untouched. -/
theorem c3_unknown_format_witness :
    (((New "http://example.com").setResponseFormat "zalgo").Do
        { statusCode := 200, contentType := "text/plain", bodyBytes := "ok", readErr := none }
        decStub [Target.nonPtr "struct"]).targets = [Target.nonPtr "struct"]
      ∧ (((New "http://example.com").setResponseFormat "zalgo").Do
          { statusCode := 200, contentType := "text/plain", bodyBytes := "ok", readErr := none }
          decStub [Target.nonPtr "struct"]).err
        = some "found unknown response format zalgo" := by
  have h := (c3_unknown_format "zalgo" (by decide) (by decide) (by decide) (by decide)).2.2
    ((New "http://example.com").setResponseFormat "zalgo")
    { statusCode := 200, contentType := "text/plain", bodyBytes := "ok", readErr := none }
    decStub [Target.nonPtr "struct"] rfl rfl (by decide) (by decide)
  refine ⟨h.1, ?_⟩
  rw [h.2]
  simp [intercalate_singleton]

/-- C6: the format resolver is a pure mapping: a forced JSON / XML /
bytes selector yields the corresponding strategy directly, whatever
the content type is; the content-type-driven selector parses the
media type (ignoring parameters such as charset) and maps
`application/json` to the JSON strategy, `text/xml` and
`application/xml` to the XML strategy, and any other successfully
parsed media type to the bytes strategy. -/
theorem c6_format_resolver :
    (∀ ct : String,
      resolveFormat ResponseFormatJSON ct = (targetFormatJSON, none)
        ∧ resolveFormat ResponseFormatXML ct = (targetFormatXML, none)
        ∧ resolveFormat ResponseFormatBytes ct = (targetFormatBytes, none))
    ∧ (∀ ct m : String, parseMediaType ct = (m, none) →
        inferTargetFormat ct =
          ((if m = "application/json" then targetFormatJSON
            else if m = "text/xml" ∨ m = "application/xml" then targetFormatXML
            else targetFormatBytes), none)
          ∧ resolveFormat ResponseFormatContentType ct =
            ((if m = "application/json" then targetFormatJSON
              else if m = "text/xml" ∨ m = "application/xml" then targetFormatXML
              else targetFormatBytes), none))
    ∧ parseMediaType "application/json; charset=utf-8" = ("application/json", none) := by
  refine ⟨?_, ?_, by rfl⟩
  · intro ct
    refine ⟨?_, ?_, ?_⟩ <;>
      simp [resolveFormat, ResponseFormatJSON, ResponseFormatXML, ResponseFormatBytes,
        ResponseFormatContentType, targetFormatJSON, targetFormatXML, targetFormatBytes]
  · intro ct m hp
    have hinfer : inferTargetFormat ct =
        ((if m = "application/json" then targetFormatJSON
          else if m = "text/xml" ∨ m = "application/xml" then targetFormatXML
          else targetFormatBytes), none) := by
      simp only [inferTargetFormat, hp]
      split_ifs <;> rfl
    refine ⟨hinfer, ?_⟩
    simp [resolveFormat, ResponseFormatJSON, ResponseFormatXML, ResponseFormatBytes,
      ResponseFormatContentType, hinfer]

/-- Witness for C6: a parameterized XML content type resolves to the
XML strategy, and a forced JSON selector resolves directly. -/
theorem c6_format_resolver_witness :
    inferTargetFormat "text/xml; charset=utf-8" = (targetFormatXML, none)
      ∧ resolveFormat ResponseFormatJSON "text/plain" = (targetFormatJSON, none) := by
  constructor
  · have h := (c6_format_resolver.2.1 "text/xml; charset=utf-8" "text/xml" (by rfl)).1
    simpa using h
  · exact (c6_format_resolver.1 "text/plain").1

/-- C1: with an empty accumulator, a response status below 400 and a
decode phase that produces no error, `Do` returns nil and the
destinations hold exactly the values the decode strategies wrote; in
particular, for the concrete scenario — body
`(\x7b"ok":true,"animal":"platypus"\x7d)` served as `application/json`,
default content-type-driven selector, one destination pointing at a
zero `responseType` struct — `Do` returns nil and the destination
holds `OK = true`, `Animal = "platypus"`. -/
theorem c1_do_success (r : RequestState) (res : Response) (dec : Decoders) (ts : List Target)
    (h1 : r.multiErr.Errors = []) (h2 : res.statusCode < 400)
    (h3 : (processTargets r.responseFormat res.contentType dec
        { multiErr := r.multiErr, remaining := res.bodyBytes, readErr := res.readErr }
        ts).fst.multiErr.Errors = []) :
    ((r.Do res dec ts).err = none
      ∧ (r.Do res dec ts).targets =
        (processTargets r.responseFormat res.contentType dec
          { multiErr := r.multiErr, remaining := res.bodyBytes, readErr := res.readErr } ts).snd)
    ∧ (∀ (u : String) (dec2 : Decoders),
        dec2.jsonDecode platypusBody platypusDestBefore = Except.ok (platypusDestAfter, "") →
        (New u).Do platypusResponse dec2 [platypusDestBefore] =
          { err := none, state := New u, targets := [platypusDestAfter] }) := by
  constructor
  · rw [do_ok r res dec ts h1]
    have hn : ¬ 400 ≤ res.statusCode := Nat.not_le.mpr h2
    constructor <;> simp [RequestState.afterDispatch, hn, RequestState.OK, h3]
  · intro u dec2 hdec
    have hnew : (New u).multiErr.Errors = [] := rfl
    rw [do_ok _ _ _ _ hnew]
    have hres : resolveFormat "content-type" "application/json" = (targetFormatJSON, none) := by
      rfl
    simp [RequestState.afterDispatch, platypusResponse, New, processTargets, processTarget,
      hres, decodeTarget, targetFormatJSON, targetFormatXML, targetFormatBytes, hdec,
      RequestState.OK, ResponseFormatContentType]

/-- Witness for C1 at the concrete scenario, with the JSON decoder
collaborator instantiated by its concrete behaviour on the scenario's
body and destination. -/
theorem c1_do_success_witness :
    (New "http://example.com").Do platypusResponse decPlatypus [platypusDestBefore] =
      { err := none, state := New "http://example.com", targets := [platypusDestAfter] }
      ∧ platypusDestAfter = Target.ptr "rekwest.responseType" (GoValue.respStruct true "platypus") := by
  refine ⟨?_, rfl⟩
  exact (c1_do_success (New "http://example.com") platypusResponse decPlatypus
    [platypusDestBefore] rfl (by decide) (by rfl)).2 "http://example.com" decPlatypus (by rfl)

/-- C7: under the bytes strategy, a non-pointer destination makes `Do`
record the error naming the encountered kind and leaves the
destination unmodified; a pointer destination whose element type is
not a byte slice makes `Do` record the error naming the encountered
element type (for example `[]string`) and leaves the destination
unmodified; a pointer to a byte slice has its contents replaced with
the full response body bytes. -/
theorem c7_bytes_strategy (r : RequestState) (res : Response) (dec : Decoders)
    (h1 : r.multiErr.Errors = []) (h2 : r.responseFormat = ResponseFormatBytes)
    (h3 : res.statusCode < 400) (h4 : res.readErr = none) :
    (∀ k : String,
      r.Do res dec [Target.nonPtr k] =
        { err := some ("expected pointer kind, encountered " ++ k
            ++ " when decoding into target element"),
          state := { r with multiErr := { Errors := ["expected pointer kind, encountered " ++ k
            ++ " when decoding into target element"] } },
          targets := [Target.nonPtr k] })
    ∧ (∀ (s : String) (v : GoValue), s ≠ "[]uint8" →
        r.Do res dec [Target.ptr s v] =
          { err := some ("expected byte slice elem, encountered " ++ s
              ++ " when decoding into target element"),
            state := { r with multiErr := { Errors := ["expected byte slice elem, encountered "
              ++ s ++ " when decoding into target element"] } },
            targets := [Target.ptr s v] })
    ∧ (∀ v : GoValue,
        r.Do res dec [Target.ptr "[]uint8" v] =
          { err := none, state := r,
            targets := [Target.ptr "[]uint8" (GoValue.byteSlice res.bodyBytes)] }) := by
  have hn : ¬ 400 ≤ res.statusCode := Nat.not_le.mpr h3
  have hm : r.multiErr = { Errors := ([] : List String) } := by rw [← h1]
  have hres : resolveFormat r.responseFormat res.contentType = ("bytes", none) := by
    simp [resolveFormat, h2, ResponseFormatJSON, ResponseFormatXML, ResponseFormatBytes,
      ResponseFormatContentType]
  refine ⟨?_, ?_, ?_⟩
  · intro k
    rw [do_ok _ _ _ _ h1]
    simp [RequestState.afterDispatch, hn, processTargets, processTarget, hres, decodeTarget,
      targetFormatJSON, targetFormatXML, targetFormatBytes, h4, RequestState.OK,
      multiError_appendErrs_errors, h1, hm, MultiError.appendErrs,
      multiError_error_eq, intercalate_singleton]
  · intro s v hs
    rw [do_ok _ _ _ _ h1]
    simp [RequestState.afterDispatch, hn, processTargets, processTarget, hres, decodeTarget,
      targetFormatJSON, targetFormatXML, targetFormatBytes, h4, hs, RequestState.OK,
      multiError_appendErrs_errors, h1, hm, MultiError.appendErrs,
      multiError_error_eq, intercalate_singleton]
  · intro v
    rw [do_ok _ _ _ _ h1]
    simp [RequestState.afterDispatch, hn, processTargets, processTarget, hres, decodeTarget,
      targetFormatJSON, targetFormatXML, targetFormatBytes, h4, RequestState.OK, h1]

/-- Witness for C7: with a forced bytes selector, a `*[]string`
destination yields exactly the message of the claim's example and is
left untouched, while a `*[]byte` destination receives the body. -/
theorem c7_bytes_strategy_witness :
    (((New "http://example.com").setResponseFormat ResponseFormatBytes).Do
        { statusCode := 200, contentType := "", bodyBytes := "payload", readErr := none }
        decStub [Target.ptr "[]string" (GoValue.other "strings")]).err
      = some "expected byte slice elem, encountered []string when decoding into target element"
      ∧ (((New "http://example.com").setResponseFormat ResponseFormatBytes).Do
          { statusCode := 200, contentType := "", bodyBytes := "payload", readErr := none }
          decStub [Target.ptr "[]string" (GoValue.other "strings")]).targets
        = [Target.ptr "[]string" (GoValue.other "strings")]
      ∧ (((New "http://example.com").setResponseFormat ResponseFormatBytes).Do
          { statusCode := 200, contentType := "", bodyBytes := "payload", readErr := none }
          decStub [Target.ptr "[]uint8" (GoValue.byteSlice "")]).targets
        = [Target.ptr "[]uint8" (GoValue.byteSlice "payload")] := by
  have h := c7_bytes_strategy ((New "http://example.com").setResponseFormat ResponseFormatBytes)
    { statusCode := 200, contentType := "", bodyBytes := "payload", readErr := none }
    decStub rfl rfl (by decide) rfl
  have he := h.2.1 "[]string" (GoValue.other "strings") (by decide)
  have hb := h.2.2 (GoValue.byteSlice "")
  rw [he, hb]
  refine ⟨by rfl, rfl, rfl⟩

/-- C2: the claim says that when the content-type-driven selector hits
a missing or unparsable Content-Type header, the parse error is
recorded but the bytes strategy is still used as fallback, so a
`*[]byte` destination still receives the body. The code disagrees:
`Do` records the parse error and leaves `format` at its zero value,
which matches no decode case, so no strategy runs at all — at the
failing input (absent header, body `hello`, `*[]byte` destination)
the destination keeps its old empty contents and `Do` returns the
parse error, while `inferTargetFormat` itself does return the bytes
fallback alongside the error. -/
theorem c2_parse_error_no_bytes_fallback :
    (New "http://example.com").Do
        { statusCode := 200, contentType := "", bodyBytes := "hello", readErr := none }
        decStub [Target.ptr "[]uint8" (GoValue.byteSlice "")] =
      { err := some "mime: no media type",
        state := { url := "http://example.com", method := "GET", body := none, header := [], multiErr := { Errors := ["mime: no media type"] }, responseFormat := ResponseFormatContentType },
        targets := [Target.ptr "[]uint8" (GoValue.byteSlice "")] }
      ∧ inferTargetFormat "" = (targetFormatBytes, some "mime: no media type")
      ∧ Target.ptr "[]uint8" (GoValue.byteSlice "")
          ≠ Target.ptr "[]uint8" (GoValue.byteSlice "hello") := by
  refine ⟨by rfl, by rfl, by decide⟩

/-- C8: the decode phase of one `Do` call treats destinations
independently and exhaustively: the loop over a first block of
destinations is unaffected by a later block (so destinations already
processed keep their assigned values even if a later one fails),
errors only ever accumulate, every destination is processed (one
output per input), and at the end `Do` returns the composite error
precisely when the accumulator ended up non-empty, and nil
otherwise. -/
theorem c8_error_accumulation :
    (∀ (rf ct : String) (dec : Decoders) (st : LoopState) (ts1 ts2 : List Target),
      processTargets rf ct dec st (ts1 ++ ts2) =
        ((processTargets rf ct dec (processTargets rf ct dec st ts1).fst ts2).fst,
          (processTargets rf ct dec st ts1).snd ++
            (processTargets rf ct dec (processTargets rf ct dec st ts1).fst ts2).snd))
    ∧ (∀ (rf ct : String) (dec : Decoders) (st : LoopState) (ts : List Target),
        ∃ es, (processTargets rf ct dec st ts).fst.multiErr.Errors = st.multiErr.Errors ++ es)
    ∧ (∀ (rf ct : String) (dec : Decoders) (st : LoopState) (ts : List Target),
        (processTargets rf ct dec st ts).snd.length = ts.length)
    ∧ (∀ (r : RequestState) (res : Response) (dec : Decoders) (ts : List Target),
        r.multiErr.Errors = [] → res.statusCode < 400 →
        ((processTargets r.responseFormat res.contentType dec
            { multiErr := r.multiErr, remaining := res.bodyBytes, readErr := res.readErr }
            ts).fst.multiErr.Errors = [] → (r.Do res dec ts).err = none)
          ∧ ((processTargets r.responseFormat res.contentType dec
              { multiErr := r.multiErr, remaining := res.bodyBytes, readErr := res.readErr }
              ts).fst.multiErr.Errors ≠ [] →
            (r.Do res dec ts).err = some ((processTargets r.responseFormat res.contentType dec
              { multiErr := r.multiErr, remaining := res.bodyBytes, readErr := res.readErr }
              ts).fst.multiErr.error))) := by
  refine ⟨fun rf ct dec st ts1 ts2 => processTargets_append rf ct dec ts1 ts2 st,
    fun rf ct dec st ts => processTargets_errors_mono rf ct dec ts st,
    fun rf ct dec st ts => processTargets_length rf ct dec ts st, ?_⟩
  intro r res dec ts hacc hst
  rw [do_ok r res dec ts hacc]
  have hn : ¬ 400 ≤ res.statusCode := Nat.not_le.mpr hst
  constructor
  · intro hempty
    simp [RequestState.afterDispatch, hn, RequestState.OK, hempty]
  · intro hne
    have hcond : ((processTargets r.responseFormat res.contentType dec
        { multiErr := r.multiErr, remaining := res.bodyBytes, readErr := res.readErr }
        ts).fst.multiErr.Errors.length == 0) = false := by
      simp [List.length_eq_zero, hne]
    simp [RequestState.afterDispatch, hn, RequestState.OK, hcond]

/-- Witness for C8 at a concrete two-destination call under a forced
JSON selector whose decoder fails on the first destination with
`bad json` and succeeds on the second: the first error does not stop
the second destination from being decoded, and `Do` returns the
composite error. -/
theorem c8_error_accumulation_witness :
    (((New "http://example.com").setResponseFormat ResponseFormatJSON).Do
        { statusCode := 200, contentType := "", bodyBytes := "payload", readErr := none }
        { jsonDecode := fun _ t =>
            if t = Target.nonPtr "bool" then Except.error "bad json"
            else Except.ok (Target.ptr "rekwest.responseType" (GoValue.respStruct true "ok"), ""),
          xmlDecode := fun _ _ => Except.error "xml stub" }
        [Target.nonPtr "bool", platypusDestBefore]).err = some "bad json"
      ∧ (((New "http://example.com").setResponseFormat ResponseFormatJSON).Do
          { statusCode := 200, contentType := "", bodyBytes := "payload", readErr := none }
          { jsonDecode := fun _ t =>
              if t = Target.nonPtr "bool" then Except.error "bad json"
              else Except.ok (Target.ptr "rekwest.responseType" (GoValue.respStruct true "ok"), ""),
            xmlDecode := fun _ _ => Except.error "xml stub" }
          [Target.nonPtr "bool", platypusDestBefore]).targets
        = [Target.nonPtr "bool", Target.ptr "rekwest.responseType" (GoValue.respStruct true "ok")] := by
  have h := (c8_error_accumulation.2.2.2 ((New "http://example.com").setResponseFormat
      ResponseFormatJSON)
    { statusCode := 200, contentType := "", bodyBytes := "payload", readErr := none }
    { jsonDecode := fun _ t =>
        if t = Target.nonPtr "bool" then Except.error "bad json"
        else Except.ok (Target.ptr "rekwest.responseType" (GoValue.respStruct true "ok"), ""),
      xmlDecode := fun _ _ => Except.error "xml stub" }
    [Target.nonPtr "bool", platypusDestBefore] rfl (by decide)).2 (by decide)
  rw [h]
  exact ⟨by rfl, by rfl⟩

/-- Do only ever appends to the accumulator, on every code path. -/
theorem do_state_errors_mono (r : RequestState) (res : Response) (dec : Decoders)
    (ts : List Target) :
    ∃ es, ((r.Do res dec ts).state).multiErr.Errors = r.multiErr.Errors ++ es := by
  by_cases hacc : r.multiErr.Errors = []
  · rw [do_ok r res dec ts hacc]
    by_cases h4 : 400 ≤ res.statusCode
    · cases hr : res.readErr with
      | none => exact ⟨[], by simp [RequestState.afterDispatch, h4, hr]⟩
      | some e => exact ⟨[], by simp [RequestState.afterDispatch, h4, hr]⟩
    · obtain ⟨es, hes⟩ := processTargets_errors_mono r.responseFormat res.contentType dec ts
        { multiErr := r.multiErr, remaining := res.bodyBytes, readErr := res.readErr }
      refine ⟨es, ?_⟩
      simp only [RequestState.afterDispatch, if_neg h4]
      split <;> simpa using hes
  · rw [do_not_ok r res dec ts hacc]
    exact ⟨[], by simp⟩

/-- C10: the request's error list is append-only: `Do` itself and the
configuration operations only preserve or extend it, never clear it;
consequently, once some `Do` call leaves a non-empty accumulator,
every subsequent `Do` call on the resulting state short-circuits at
its initial accumulator check, returning the composite error with the
same outcome whatever the response, decoders and destinations of that
second call are — no dispatch happens. -/
theorem c10_append_only :
    (∀ (r : RequestState) (res : Response) (dec : Decoders) (ts : List Target),
      ∃ es, ((r.Do res dec ts).state).multiErr.Errors = r.multiErr.Errors ++ es)
    ∧ (∀ (r : RequestState) (mr : Except String String),
        ∃ es, (r.marshalBody mr).multiErr.Errors = r.multiErr.Errors ++ es)
    ∧ (∀ (r : RequestState) (f : String), (r.setResponseFormat f).multiErr = r.multiErr)
    ∧ (∀ (r : RequestState) (m : String), (r.setMethod m).multiErr = r.multiErr)
    ∧ (∀ (r : RequestState) (k v : String), (r.headerAdd k v).multiErr = r.multiErr)
    ∧ (∀ (r : RequestState) (b : String), (r.bytesBody b).multiErr = r.multiErr)
    ∧ (∀ (r : RequestState) (res : Response) (dec : Decoders) (ts : List Target),
        ((r.Do res dec ts).state).multiErr.Errors ≠ [] →
        ∀ (res2 : Response) (dec2 : Decoders) (ts2 : List Target),
          ((r.Do res dec ts).state).Do res2 dec2 ts2 =
            { err := some ((r.Do res dec ts).state).multiErr.error,
              state := (r.Do res dec ts).state, targets := ts2 }) := by
  refine ⟨do_state_errors_mono, fun r mr => ?_, fun r f => ?_, fun r m => rfl,
    fun r k v => rfl, fun r b => rfl, fun r res dec ts hne res2 dec2 ts2 => ?_⟩
  · cases mr with
    | error e => exact ⟨[e], by simp [RequestState.marshalBody, multiError_appendErrs_errors]⟩
    | ok b => exact ⟨[], by simp [RequestState.marshalBody, RequestState.bytesBody]⟩
  · simp only [RequestState.setResponseFormat, RequestState.headerAdd]
    split
    · rfl
    · split <;> rfl
  · exact do_not_ok _ res2 dec2 ts2 hne

/-- Witness for C10: a first `Do` that hits the unknown-format error
leaves a non-empty accumulator, and a second `Do` on the resulting
state short-circuits with that composite error, for a different
response and destination list. -/
theorem c10_append_only_witness :
    ((((New "http://example.com").setResponseFormat "zalgo").Do
        { statusCode := 200, contentType := "", bodyBytes := "ok", readErr := none }
        decStub [Target.nonPtr "struct"]).state).Do
      { statusCode := 500, contentType := "application/json", bodyBytes := "zzz", readErr := none }
      decStub []
      = { err := some "found unknown response format zalgo",
          state := (((New "http://example.com").setResponseFormat "zalgo").Do
            { statusCode := 200, contentType := "", bodyBytes := "ok", readErr := none }
            decStub [Target.nonPtr "struct"]).state,
          targets := [] } := by
  have h := c10_append_only.2.2.2.2.2.2 ((New "http://example.com").setResponseFormat "zalgo")
    { statusCode := 200, contentType := "", bodyBytes := "ok", readErr := none }
    decStub [Target.nonPtr "struct"] (by decide)
    { statusCode := 500, contentType := "application/json", bodyBytes := "zzz", readErr := none }
    decStub []
  rw [h]
  rfl

end Rekwest
